import Mathlib

/-!
Verification of the ingredient-conversion pipeline
(`IngredientConverterHelpers/convert_ingredients.py`).

The Python source is shallowly embedded: pandas cells become the `Cell`
type (a blank spreadsheet cell is read by pandas as the float NaN, modelled
by `Cell.nan`), a row becomes an association list from column name to cell,
fallible Python code (KeyError on a missing column, ValueError from
`float()`) becomes `Except PyErr`, and the insertion-ordered Python dict
`ingredients` becomes an insertion-ordered association list.
-/

set_option autoImplicit false

namespace IngredientConverter

/-- A raw pandas cell value: a string, a number, or the NaN marker that
pandas uses for blank cells. Numbers are modelled as rationals (the claims
never depend on binary floating-point rounding). -/
inductive Cell where
  | str (s : String)
  | num (q : ℚ)
  | nan
  deriving DecidableEq, Inhabited

/-- Python `str.strip()`: drops whitespace from both ends. Implemented
over the character list so that it reduces inside the kernel. -/
def strStrip (s : String) : String :=
  ⟨((s.data.dropWhile Char.isWhitespace).reverse.dropWhile Char.isWhitespace).reverse⟩

/-- Python `str.lower()` (ASCII case folding, which covers every unit name
the pipeline sees). -/
def strLower (s : String) : String :=
  ⟨s.data.map Char.toLower⟩

/-- Python `str()` of a cell. `str` of a NaN float is the literal text
`"nan"`. Integral numbers render like pandas integer columns (`str(0) = "0"`);
the rendering of non-integral numbers is nominal (`num/den`), which no
claim exercises. -/
def pyStr : Cell → String
  | .str s => s
  | .num q => if q.den = 1 then toString q.num else toString q.num ++ "/" ++ toString q.den
  | .nan => "nan"

/-- `pd.notna` on a single cell: false exactly on the NaN marker. -/
def cellNotna : Cell → Bool
  | .nan => false
  | _ => true

/-- Python truthiness of a cell: the empty string and the number 0 are
falsy; every other string or number is truthy, and the NaN float is truthy. -/
def pyTruthy : Cell → Bool
  | .str s => s ≠ ""
  | .num q => q ≠ 0
  | .nan => true

/-- `pd.notna` applied to an optional cell (`None`, i.e. a missing column,
is also "na"). -/
def optNotna : Option Cell → Bool
  | none => false
  | some c => cellNotna c

/-- A normalized unit descriptor: either a plain lowercase unit name or an
irregular count unit with singular/plural forms (the tagged union the JSON
output uses: a bare string versus a `{"count": {...}}` object). -/
inductive UnitDesc where
  | simple (s : String)
  | count (singular plural : String)
  deriving DecidableEq, Inhabited

/-- Line 52 of `parse_unit`:
`unit_str = str(unit_str).strip() if pd.notna(unit_str) else ""`. -/
def normUnitStr (unit_str : Option Cell) : String :=
  match unit_str with
  | some c => if cellNotna c then strStrip (pyStr c) else ""
  | none => ""

/-- `parse_unit(unit_str, singular=None, plural=None)` from the source:
returns a count unit whenever `pd.notna(singular) and pd.notna(plural)`,
with the stripped string forms; otherwise the lowercased stripped unit
string. -/
def parse_unit (unit_str singular plural : Option Cell) : UnitDesc :=
  let u := normUnitStr unit_str
  match singular, plural with
  | some sc, some pc =>
    if cellNotna sc && cellNotna pc then .count (strStrip (pyStr sc)) (strStrip (pyStr pc))
    else .simple (strLower u)
  | _, _ => .simple (strLower u)

/-- A Python float value: finite (as a rational), NaN, or a signed
infinity. -/
inductive PyFloat where
  | fin (q : ℚ)
  | nan
  | inf (neg : Bool)
  deriving DecidableEq, Inhabited

/-- Exceptions the embedded Python code can raise: `KeyError` from
`row[col]` on a missing column (or a dict subscript on a missing key),
`ValueError` from `float()` on a non-numeric string, `IOError` from
opening/reading the prior artifact, `UnicodeDecodeError` from decoding its
bytes, `json.JSONDecodeError` from parsing its text, and `TypeError` from
`'version' in data` on a non-container or from `current_version + 1` on a
non-numeric version. The exception classes are kept distinct because the
`except (json.JSONDecodeError, IOError)` clause catches exactly two of
them. -/
inductive PyErr where
  | keyError (col : String)
  | valueError
  | ioError
  | unicodeDecodeError
  | jsonDecodeError
  | typeError
  deriving DecidableEq, Inhabited

/-- Numeric value of a list of decimal digit characters. -/
def digitsVal (ds : List Char) : ℕ :=
  ds.foldl (fun n c => n * 10 + (c.toNat - 48)) 0

/-- Splits a character list at the first `e`/`E` (exponent marker). -/
def splitExp : List Char → (List Char × Option (List Char))
  | [] => ([], none)
  | c :: rest =>
    if c = 'e' ∨ c = 'E' then ([], some rest)
    else
      let (m, ex) := splitExp rest
      (c :: m, ex)

/-- Parses an optional sign, returning the sign as a rational and the rest. -/
def takeSign : List Char → (ℚ × List Char)
  | '+' :: rest => (1, rest)
  | '-' :: rest => (-1, rest)
  | cs => (1, cs)

/-- Parses an unsigned decimal mantissa: digits with an optional single
point, at least one digit overall (Python accepts `"1."` and `".5"`). -/
def parseMantissa (cs : List Char) : Option ℚ :=
  let intPart := cs.takeWhile Char.isDigit
  let rest := cs.drop intPart.length
  match rest with
  | [] => if intPart.isEmpty then none else some (digitsVal intPart : ℚ)
  | '.' :: frac =>
    if frac.all Char.isDigit ∧ ¬(intPart.isEmpty ∧ frac.isEmpty) then
      some ((digitsVal intPart : ℚ) + (digitsVal frac : ℚ) / (10 ^ frac.length))
    else none
  | _ => none

/-- Parses a signed decimal exponent (digits required). -/
def parseExp (cs : List Char) : Option ℤ :=
  let (sgn, body) := takeSign cs
  if body.isEmpty ∨ ¬body.all Char.isDigit then none
  else some (if sgn = 1 then (digitsVal body : ℤ) else -(digitsVal body : ℤ))

/-- Model of Python `float()` applied to a string: surrounding whitespace
is stripped, then an optional sign followed by either the literals
`nan`/`inf`/`infinity` (case-insensitive) or decimal notation with an
optional exponent. Digit-group underscores are not modelled. Returns
`none` where Python raises `ValueError`. -/
def pythonFloatOfString (s : String) : Option PyFloat :=
  let cs := (strStrip s).data
  let (sgn, body) := takeSign cs
  let lowered := body.map Char.toLower
  if lowered = ['n', 'a', 'n'] then some .nan
  else if lowered = ['i', 'n', 'f'] ∨ lowered = "infinity".toList then
    some (.inf (sgn ≠ 1))
  else
    match splitExp body with
    | (m, none) => (parseMantissa m).map (fun q => .fin (sgn * q))
    | (m, some e) => do
      let q ← parseMantissa m
      let ex ← parseExp e
      some (.fin (sgn * q * (10 : ℚ) ^ ex))

/-- Python `float()` on a cell: numbers pass through, the NaN cell is the
NaN float, and strings are parsed (ValueError on failure). -/
def pyFloat : Cell → Except PyErr PyFloat
  | .num q => .ok (.fin q)
  | .nan => .ok .nan
  | .str s =>
    match pythonFloatOfString s with
    | some v => .ok v
    | none => .error .valueError

/-- A row: an association list from column name to cell value, as produced
by the external row source after its header-trim pass. A column absent from
the input is simply absent from every row's list. -/
abbrev Row := List (String × Cell)

/-- `row.get(col)`: `none` when the column is absent. -/
def rowGet : Row → String → Option Cell
  | [], _ => none
  | (c, v) :: rest, col => if c = col then some v else rowGet rest col

/-- `row[col]`: raises `KeyError` when the column is absent. -/
def rowItem (row : Row) (col : String) : Except PyErr Cell :=
  match rowGet row col with
  | some v => .ok v
  | none => .error (.keyError col)

instance {ε α : Type} [DecidableEq ε] [DecidableEq α] : DecidableEq (Except ε α) := fun a b =>
  match a, b with
  | .error e, .error f =>
    if h : e = f then isTrue (by rw [h]) else isFalse (by intro hc; cases hc; exact h rfl)
  | .error _, .ok _ => isFalse (by intro hc; cases hc)
  | .ok _, .error _ => isFalse (by intro hc; cases hc)
  | .ok x, .ok y =>
    if h : x = y then isTrue (by rw [h]) else isFalse (by intro hc; cases hc; exact h rfl)

/-- A parsed JSON value, as `json.load` can return it: an object, an
array, a string, a number, a bool, or null. The prior artifact's top level
and its `version` value range over all of these. -/
inductive JsonVal where
  | obj (fields : List (String × JsonVal))
  | arr (elems : List JsonVal)
  | str (s : String)
  | num (q : ℚ)
  | bool (b : Bool)
  | null

/-- Whether `pat` occurs as a prefix of `s` (character lists). -/
def charsStartWith : List Char → List Char → Bool
  | [], _ => true
  | _ :: _, [] => false
  | p :: ps, c :: cs => p = c && charsStartWith ps cs

/-- Whether `pat` occurs as a contiguous substring of `s` (Python
`pat in s` on strings). -/
def charsContain (pat : List Char) : List Char → Bool
  | [] => pat.isEmpty
  | c :: rest => charsStartWith pat (c :: rest) || charsContain pat rest

/-- Whether a JSON value is the string `"version"` (Python `==` as used by
list containment). -/
def isVersionStr : JsonVal → Bool
  | .str s => s = "version"
  | _ => false

/-- First-match lookup of a key in a JSON object's field list. -/
def jsonObjGet (fields : List (String × JsonVal)) (k : String) : Option JsonVal :=
  match fields with
  | [] => none
  | (j, v) :: rest => if j = k then some v else jsonObjGet rest k

/-- Whether a JSON object has a field named `k`. -/
def jsonObjHas (fields : List (String × JsonVal)) (k : String) : Bool :=
  match fields with
  | [] => false
  | (j, _) :: rest => j = k || jsonObjHas rest k

/-- Python `'version' in data` (line 40): key containment for a dict,
element containment for a list, substring containment for a string, and
`TypeError` for null, a number or a bool (not iterable). -/
def pyContainsVersion : JsonVal → Except PyErr Bool
  | .obj fields => .ok (jsonObjHas fields "version")
  | .arr elems => .ok (elems.any isVersionStr)
  | .str s => .ok (charsContain "version".data s.data)
  | .num _ => .error .typeError
  | .bool _ => .error .typeError
  | .null => .error .typeError

/-- Python `data['version']` (line 41): dict lookup (`KeyError` when the
key is missing), `TypeError` for a list or string subscripted with a
string, unreachable otherwise in context. -/
def pySubscriptVersion : JsonVal → Except PyErr JsonVal
  | .obj fields =>
    match jsonObjGet fields "version" with
    | some v => .ok v
    | none => .error (.keyError "version")
  | _ => .error .typeError

/-- The outcome of `open` + `json.load` on an existing artifact file:
`IOError` from opening/reading, `UnicodeDecodeError` from decoding the
bytes, `JSONDecodeError` from parsing the text, or a parsed top-level
JSON value. -/
inductive ArtifactRead where
  | ioError
  | unicodeDecodeError
  | jsonDecodeError
  | parsed (data : JsonVal)

/-- The state of the prior output artifact as `get_current_version`
observes it: the file does not exist, or it exists and reading it has the
given outcome. -/
inductive Artifact where
  | absent
  | present (read : ArtifactRead)

/-- The `try:` body of `get_current_version` (lines 37–44): load the
artifact, then `return data['version'] if 'version' in data else 0`. Any
of the stages can raise. -/
def tryReadVersion (read : ArtifactRead) : Except PyErr JsonVal :=
  match read with
  | .ioError => .error .ioError
  | .unicodeDecodeError => .error .unicodeDecodeError
  | .jsonDecodeError => .error .jsonDecodeError
  | .parsed data => do
    let hasVersion ← pyContainsVersion data
    if hasVersion then pySubscriptVersion data else pure (.num 0)

/-- `get_current_version` from the source: 0 when the file does not exist
(line 33); otherwise the `try:` body runs, and the
`except (json.JSONDecodeError, IOError)` handler (line 45) turns exactly
those two exception classes into 0 — every other exception
(`UnicodeDecodeError`, `TypeError`) propagates. The result is the raw
`version` value (any JSON value), or the int 0. -/
def get_current_version (a : Artifact) : Except PyErr JsonVal :=
  match a with
  | .absent => .ok (.num 0)
  | .present read =>
    match tryReadVersion read with
    | .ok v => .ok v
    | .error .jsonDecodeError => .ok (.num 0)
    | .error .ioError => .ok (.num 0)
    | .error e => .error e

/-- Python `current_version + 1` (line 76): numbers add, bools coerce to
0/1 (Python bool is an int), and any other version value raises
`TypeError`. -/
def pyAddOne : JsonVal → Except PyErr ℚ
  | .num q => .ok (q + 1)
  | .bool b => .ok ((if b then 1 else 0) + 1)
  | _ => .error .typeError

/-- Lines 75–76 of the source: the next version is
`get_current_version(output_file) + 1`, either of which can raise. -/
def resolveNextVersion (a : Artifact) : Except PyErr ℚ := do
  let current_version ← get_current_version a
  pyAddOne current_version

/-- One conversion entry, lines 122–127 of the source:
`{"fromAmount": ..., "fromUnit": ..., "toAmount": ..., "toUnit": ...}`. -/
structure Conversion where
  fromAmount : PyFloat
  fromUnit : UnitDesc
  toAmount : PyFloat
  toUnit : UnitDesc
  deriving DecidableEq, Inhabited

/-- An ingredient record as built by the aggregation loop. Optional fields
model JSON keys that are present only when set (lines 135–141: `id`,
`category`, `brand` are added to the dict only when truthy). -/
structure IngredientData where
  name : String
  id : Option String
  category : Option String
  brand : Option String
  conversions : List Conversion
  deriving DecidableEq, Inhabited

/-- Line 101 of the source:
`ingredient_id = str(row['ID']).strip() if pd.notna(row.get('ID')) and row.get('ID') else None`.
Note the condition is pandas `notna` plus Python truthiness of the raw
cell, and the strip happens afterwards (so a whitespace-only ID cell
yields `some ""`). -/
def ingredientIdOf (row : Row) : Option String :=
  match rowGet row "ID" with
  | some c => if cellNotna c && pyTruthy c then some (strStrip (pyStr c)) else none
  | none => none

/-- Line 103: `category = str(row['Category']).strip() if
pd.notna(row.get('Category')) and row.get('Category') else None`. -/
def categoryOf (row : Row) : Option String :=
  match rowGet row "Category" with
  | some c => if cellNotna c && pyTruthy c then some (strStrip (pyStr c)) else none
  | none => none

/-- Line 104: `brand = str(row['Brand']).strip() if pd.notna(row['Brand'])
and row['Brand'] else None`. Unlike ID and Category this uses the raising
item access `row['Brand']`, so the cell extraction itself can fail. -/
def brandOf (c : Cell) : Option String :=
  if cellNotna c && pyTruthy c then some (strStrip (pyStr c)) else none

/-- Line 107: `key = ingredient_id if ingredient_id else name` — the empty
string (a whitespace-only ID cell after stripping) is falsy and falls back
to the name. -/
def keyFrom (ingredient_id : Option String) (name : String) : String :=
  match ingredient_id with
  | some i => if i = "" then name else i
  | none => name

/-- The grouping key of a row (lines 100–107): the stripped ID when notna
and truthy and nonempty after stripping, else the stripped `str(row['Name'])`.
Fails with `KeyError` exactly when the Name column is absent. -/
def rowKey (row : Row) : Except PyErr String := do
  let nameCell ← rowItem row "Name"
  pure (keyFrom (ingredientIdOf row) (strStrip (pyStr nameCell)))

/-- The grouping key as an option (discarding the error). -/
def rowKeyOpt (row : Row) : Option String :=
  (rowKey row).toOption

/-- The fresh record a row establishes when its key is new (lines
129–142): `name` from `str(row['Name']).strip()`, and the `id`, `category`
and `brand` keys added by the guards `if ingredient_id:` / `if category:`
/ `if brand:` (lines 136–141) — Python truthiness of the already-stripped
strings, so a value that stripped to the empty string is omitted exactly
like a missing one. The conversion list starts empty. -/
def recordOfRow (row : Row) : Except PyErr IngredientData := do
  let ingredient_id := ingredientIdOf row
  let nameCell ← rowItem row "Name"
  let name := strStrip (pyStr nameCell)
  let category := categoryOf row
  let brandCell ← rowItem row "Brand"
  let brand := brandOf brandCell
  pure { name := name
         id := match ingredient_id with
               | some i => if i = "" then none else some i
               | none => none
         category := match category with
                     | some c => if c = "" then none else some c
                     | none => none
         brand := match brand with
                  | some b => if b = "" then none else some b
                  | none => none
         conversions := [] }

/-- The Conversion built from a row (lines 109–127): both units are
normalized with `parse_unit` (the unit columns themselves are accessed
with raising item access, the singular/plural columns with `row.get`),
then both amounts pass through `float()`. -/
def conversionOfRow (row : Row) : Except PyErr Conversion := do
  let fuCell ← rowItem row "From Unit"
  let from_unit := parse_unit (some fuCell) (rowGet row "From Unit Singular")
    (rowGet row "From Unit Plural")
  let tuCell ← rowItem row "To Unit"
  let to_unit := parse_unit (some tuCell) (rowGet row "To Unit Singular")
    (rowGet row "To Unit Plural")
  let faCell ← rowItem row "From Amount"
  let fromAmount ← pyFloat faCell
  let taCell ← rowItem row "To Amount"
  let toAmount ← pyFloat taCell
  pure { fromAmount := fromAmount, fromUnit := from_unit
         toAmount := toAmount, toUnit := to_unit }

/-- The aggregation state: the Python dict `ingredients`, which preserves
insertion order — modelled as an insertion-ordered association list. -/
abbrev IngMap := List (String × IngredientData)

/-- First-match lookup in the aggregation state (`key in ingredients` /
`ingredients[key]`). -/
def lookupIng : IngMap → String → Option IngredientData
  | [], _ => none
  | (k, d) :: rest, key => if k = key then some d else lookupIng rest key

/-- Line 144: `ingredients[key]["conversions"].append(conversion)` —
appends a conversion to the record stored under `key` (the first matching
entry), leaving everything else unchanged. -/
def appendConv : IngMap → String → Conversion → IngMap
  | [], _, _ => []
  | (k, d) :: rest, key, c =>
    if k = key then (k, { d with conversions := d.conversions ++ [c] }) :: rest
    else (k, d) :: appendConv rest key c

/-- The body of the per-row loop (lines 99–144): extract the row's
descriptive fields (raising on a missing Name or Brand column), its key
and its conversion; create a fresh record at the end of the dict if the
key is unseen; then append the conversion to the record under the key. -/
def processRow (st : IngMap) (row : Row) : Except PyErr IngMap := do
  let rec0 ← recordOfRow row
  let key ← rowKey row
  let conv ← conversionOfRow row
  let st1 := if (lookupIng st key).isNone then st ++ [(key, rec0)] else st
  pure (appendConv st1 key conv)

/-- The aggregation loop `for _, row in df.iterrows(): ...` from an
arbitrary intermediate state; any per-row error aborts the run. -/
def aggLoop (st : IngMap) : List Row → Except PyErr IngMap
  | [] => .ok st
  | r :: rs => do
    let st' ← processRow st r
    aggLoop st' rs

/-- The full aggregation loop, starting from the empty dict. -/
def aggregate (rows : List Row) : Except PyErr IngMap :=
  aggLoop [] rows

/-- The output document `{"version": new_version, "ingredients": [...]}`
(lines 149–153); `ingredients` is `list(ingredients.values())`. The
version is a Python number (int or float, both modelled as ℚ). -/
structure Document where
  version : ℚ
  ingredients : List IngredientData
  deriving DecidableEq, Inhabited

/-- `convert_to_json` (minus the out-of-scope file I/O): resolve the next
version from the prior artifact (lines 75–76, which runs first and can
itself raise), aggregate all rows, and produce the document. The JSON file
is written only after the whole loop has finished, so an error result
means no output is written at all. -/
def convert_to_json (artifact : Artifact) (rows : List Row) : Except PyErr Document := do
  let current_version ← get_current_version artifact
  let new_version ← pyAddOne current_version
  let ings ← aggregate rows
  pure { version := new_version, ingredients := ings.map Prod.snd }

/-! Concrete rows used by witnesses and counterexamples. They mirror the
sample spreadsheet shipped with the source (flour/sugar rows). -/

/-- A flour row with ID `A1`, a blank Brand cell and simple units. -/
def rowFlour1 : Row :=
  [("ID", .str "A1"), ("Name", .str "Flour"), ("Category", .str "Baking"),
   ("Brand", .nan), ("From Amount", .num 1), ("From Unit", .str "cup"),
   ("From Unit Singular", .nan), ("From Unit Plural", .nan),
   ("To Amount", .num 120), ("To Unit", .str "gram"),
   ("To Unit Singular", .nan), ("To Unit Plural", .nan)]

/-- A second row with the same ID `A1` but different name, category and
brand — only its conversion may contribute. -/
def rowFlour2 : Row :=
  [("ID", .str "A1"), ("Name", .str "Flour(renamed)"), ("Category", .str "Other"),
   ("Brand", .str "Acme"), ("From Amount", .num 1), ("From Unit", .str "tablespoon"),
   ("From Unit Singular", .nan), ("From Unit Plural", .nan),
   ("To Amount", .num 8), ("To Unit", .str "gram"),
   ("To Unit Singular", .nan), ("To Unit Plural", .nan)]

/-- A sugar row with ID `B2` and no Category column at all. -/
def rowSugar : Row :=
  [("ID", .str "B2"), ("Name", .str "Sugar"), ("Brand", .nan),
   ("From Amount", .num 1), ("From Unit", .str "cup"),
   ("To Amount", .num 200), ("To Unit", .str "gram")]

/-- The record produced for key `A1` from `rowFlour1` then `rowFlour2`. -/
def flourRecord : IngredientData :=
  { name := "Flour", id := some "A1", category := some "Baking", brand := none,
    conversions :=
      [{ fromAmount := .fin 1, fromUnit := .simple "cup",
         toAmount := .fin 120, toUnit := .simple "gram" },
       { fromAmount := .fin 1, fromUnit := .simple "tablespoon",
         toAmount := .fin 8, toUnit := .simple "gram" }] }

/-- The record produced for key `B2` from `rowSugar`. -/
def sugarRecord : IngredientData :=
  { name := "Sugar", id := some "B2", category := none, brand := none,
    conversions :=
      [{ fromAmount := .fin 1, fromUnit := .simple "cup",
         toAmount := .fin 200, toUnit := .simple "gram" }] }

/-- The descriptive fields of a record (everything except the conversion
list): name, id, category, brand. -/
def descrOf (d : IngredientData) : String × Option String × Option String × Option String :=
  (d.name, d.id, d.category, d.brand)

/-- Whether two records agree on all descriptive fields. -/
def sameDescr (d e : IngredientData) : Prop :=
  descrOf d = descrOf e

/-- The keys of the aggregation state, in insertion order. -/
def keysOf (st : IngMap) : List String :=
  st.map Prod.fst

/-- One step of first-occurrence deduplication. -/
def dedupStep (acc : List String) (k : String) : List String :=
  if k ∈ acc then acc else acc ++ [k]

/-- The keys of a stream in order of first appearance. -/
def dedupFirst (ks : List String) : List String :=
  ks.foldl dedupStep []

/-- The keys of a row list, in stream order (fails on the row that would
make the loop fail). -/
def rowKeys : List Row → Except PyErr (List String)
  | [] => .ok []
  | r :: rs => do
    let k ← rowKey r
    let ks ← rowKeys rs
    pure (k :: ks)

/-- The conversions contributed by the rows with grouping key `k`, in
stream order. -/
def convsFor (k : String) : List Row → Except PyErr (List Conversion)
  | [] => .ok []
  | r :: rs =>
    if rowKeyOpt r = some k then do
      let c ← conversionOfRow r
      let cs ← convsFor k rs
      pure (c :: cs)
    else convsFor k rs

/-- The Boolean predicate selecting the rows with grouping key `k`. -/
def keyIs (k : String) (r : Row) : Bool :=
  rowKeyOpt r = some k

/-- Whether `float()` on this cell (when present) raises `ValueError`. -/
def cellFloatFails (o : Option Cell) : Bool :=
  match o with
  | some c => match pyFloat c with | .error _ => true | .ok _ => false
  | none => false

/-- Whether a row has a non-numeric From Amount or To Amount cell. -/
def nonNumericAmount (row : Row) : Bool :=
  cellFloatFails (rowGet row "From Amount") || cellFloatFails (rowGet row "To Amount")

/-- Modelled from the spec: a cell value is non-blank when it is present,
not the NaN missing-value marker, and its text form is nonempty after
trimming. Used only to state claims that speak of "non-blank" cells, for
comparison against the source's actual conditions. -/
def specNonBlank (o : Option Cell) : Bool :=
  match o with
  | none => false
  | some .nan => false
  | some c => strStrip (pyStr c) ≠ ""

/-- A row whose ID cell holds the number 0 (a provided, non-blank cell
that is nevertheless falsy in Python). -/
def rowZeroId : Row :=
  [("ID", .num 0), ("Name", .str " Flour ")]

/-- A row whose ID cell is a whitespace-padded string. -/
def rowIdX : Row :=
  [("ID", .str " X "), ("Name", .str "Flour")]

/-- A row whose ID, Category and Brand cells all hold the falsy number 0. -/
def rowZeroFields : Row :=
  [("ID", .num 0), ("Name", .str "Flour"), ("Category", .num 0), ("Brand", .num 0),
   ("From Amount", .num 1), ("From Unit", .str "cup"),
   ("To Amount", .num 120), ("To Unit", .str "gram")]

/-- The record `rowZeroFields` establishes: all falsy optional fields
omitted. -/
def zeroFieldsRecord : IngredientData :=
  { name := "Flour", id := none, category := none, brand := none, conversions := [] }

/-- A full row whose Name cell is blank (pandas NaN). -/
def rowNanName : Row :=
  [("ID", .nan), ("Name", .nan), ("Category", .nan), ("Brand", .nan),
   ("From Amount", .num 1), ("From Unit", .str "cup"),
   ("From Unit Singular", .nan), ("From Unit Plural", .nan),
   ("To Amount", .num 120), ("To Unit", .str "gram"),
   ("To Unit Singular", .nan), ("To Unit Plural", .nan)]

/-- A row from an input with no Name column at all. -/
def rowNoNameCol : Row :=
  [("ID", .str "A1"), ("Brand", .nan), ("From Amount", .num 1),
   ("From Unit", .str "cup"), ("To Amount", .num 120), ("To Unit", .str "gram")]

/-- A row from an input with no Brand column (every other column the loop
touches is present). -/
def rowNoBrand : Row :=
  [("ID", .str "A1"), ("Name", .str "Flour"), ("Category", .str "Baking"),
   ("From Amount", .num 1), ("From Unit", .str "cup"),
   ("To Amount", .num 120), ("To Unit", .str "gram")]

/-- A row whose From Amount cell holds non-numeric text. -/
def rowBadAmount : Row :=
  [("ID", .str "C3"), ("Name", .str "Eggs"), ("Brand", .nan),
   ("From Amount", .str "abc"), ("From Unit", .str "cup"),
   ("To Amount", .num 50), ("To Unit", .str "gram")]

/-! ## General lemmas about the embedded monadic code -/

theorem except_bind_ok {α β : Type} {x : Except PyErr α} {f : α → Except PyErr β} {b : β}
    (h : (x >>= f) = .ok b) : ∃ a, x = .ok a ∧ f a = .ok b := by
  cases x with
  | error e => simp [Bind.bind, Except.bind] at h
  | ok a => exact ⟨a, rfl, by simpa [Bind.bind, Except.bind] using h⟩

theorem except_bind_error {α β : Type} {x : Except PyErr α} {f : α → Except PyErr β} {e : PyErr}
    (h : x = .error e) : (x >>= f) = .error e := by
  rw [h]; rfl

/-- Inversion of a successful `recordOfRow`: the Name and Brand lookups
succeeded and the record is built from them plus ID and Category. -/
theorem recordOfRow_ok_inv {row : Row} {rec : IngredientData}
    (h : recordOfRow row = .ok rec) :
    ∃ nc bc, rowItem row "Name" = .ok nc ∧ rowItem row "Brand" = .ok bc ∧
      rec = { name := strStrip (pyStr nc)
              id := match ingredientIdOf row with
                    | some i => if i = "" then none else some i
                    | none => none
              category := match categoryOf row with
                          | some c => if c = "" then none else some c
                          | none => none
              brand := match brandOf bc with
                       | some b => if b = "" then none else some b
                       | none => none
              conversions := [] } := by
  unfold recordOfRow at h
  obtain ⟨nc, hnc, h⟩ := except_bind_ok h
  obtain ⟨bc, hbc, h⟩ := except_bind_ok h
  refine ⟨nc, bc, hnc, hbc, ?_⟩
  simpa [Pure.pure, Except.pure] using h.symm

/-- Inversion of a successful `rowKey`. -/
theorem rowKey_ok_inv {row : Row} {k : String} (h : rowKey row = .ok k) :
    ∃ nc, rowItem row "Name" = .ok nc ∧
      k = keyFrom (ingredientIdOf row) (strStrip (pyStr nc)) := by
  unfold rowKey at h
  obtain ⟨nc, hnc, h⟩ := except_bind_ok h
  exact ⟨nc, hnc, by simpa [Pure.pure, Except.pure] using h.symm⟩

/-- Inversion of a successful `processRow`: all three row extractions
succeeded and the new state is the source's update of the old one. -/
theorem processRow_ok_inv {st : IngMap} {row : Row} {st' : IngMap}
    (h : processRow st row = .ok st') :
    ∃ rec0 key conv, recordOfRow row = .ok rec0 ∧ rowKey row = .ok key ∧
      conversionOfRow row = .ok conv ∧
      st' = appendConv (if (lookupIng st key).isNone then st ++ [(key, rec0)] else st)
        key conv := by
  unfold processRow at h
  obtain ⟨rec0, hrec, h⟩ := except_bind_ok h
  obtain ⟨key, hkey, h⟩ := except_bind_ok h
  obtain ⟨conv, hconv, h⟩ := except_bind_ok h
  refine ⟨rec0, key, conv, hrec, hkey, hconv, ?_⟩
  simpa [Pure.pure, Except.pure] using h.symm

@[simp]
theorem ok_bind {α β : Type} (a : α) (f : α → Except PyErr β) :
    (Except.ok a >>= f) = f a := rfl

@[simp]
theorem error_bind {α β : Type} (e : PyErr) (f : α → Except PyErr β) :
    (Except.error e >>= f) = Except.error e := rfl

/-- If some row of the stream fails on every state, the whole loop fails. -/
theorem aggLoop_error_of_bad_row {rows : List Row} {r : Row} (hmem : r ∈ rows)
    (hbad : ∀ st, ∃ e, processRow st r = .error e) (st0 : IngMap) :
    ∃ e, aggLoop st0 rows = .error e := by
  induction rows generalizing st0 with
  | nil => cases hmem
  | cons hd tl ih =>
    rcases List.mem_cons.mp hmem with heq | htl
    · subst heq
      obtain ⟨e, he⟩ := hbad st0
      exact ⟨e, by simp [aggLoop, he]⟩
    · cases hp : processRow st0 hd with
      | error e => exact ⟨e, by simp [aggLoop, hp]⟩
      | ok st1 =>
        obtain ⟨e, he⟩ := ih htl st1
        exact ⟨e, by simp [aggLoop, hp, he]⟩

/-- A row from an input with no Name column fails on every state (the
`str(row['Name'])` access raises `KeyError`). -/
theorem processRow_error_of_no_name {row : Row} (h : rowGet row "Name" = none)
    (st : IngMap) : ∃ e, processRow st row = .error e := by
  have h1 : rowItem row "Name" = .error (.keyError "Name") := by
    simp [rowItem, h]
  have h2 : recordOfRow row = .error (.keyError "Name") := by
    unfold recordOfRow
    rw [h1]
    rfl
  exact ⟨.keyError "Name", by unfold processRow; rw [h2]; rfl⟩

/-- A row with a non-numeric amount makes `conversionOfRow` fail. -/
theorem conversionOfRow_error_of_bad_amount {row : Row}
    (h : nonNumericAmount row = true) : ∃ e, conversionOfRow row = .error e := by
  unfold conversionOfRow
  cases hfu : rowItem row "From Unit" with
  | error e => exact ⟨e, by simp⟩
  | ok fuCell =>
  cases htu : rowItem row "To Unit" with
  | error e => exact ⟨e, by simp⟩
  | ok tuCell =>
  cases hfa : rowItem row "From Amount" with
  | error e => exact ⟨e, by simp⟩
  | ok faCell =>
  cases hfp : pyFloat faCell with
  | error e => exact ⟨e, by simp [hfp]⟩
  | ok fa =>
  cases hta : rowItem row "To Amount" with
  | error e => exact ⟨e, by simp [hfp]⟩
  | ok taCell =>
  cases htp : pyFloat taCell with
  | error e => exact ⟨e, by simp [hfp, htp]⟩
  | ok ta =>
  exfalso
  rcases Bool.or_eq_true_iff.mp h with hbad | hbad
  · unfold rowItem at hfa
    unfold cellFloatFails at hbad
    cases hg : rowGet row "From Amount" with
    | none => rw [hg] at hbad; simp at hbad
    | some c =>
      rw [hg] at hbad hfa
      simp at hfa
      rw [hfa] at hbad
      simp [hfp] at hbad
  · unfold rowItem at hta
    unfold cellFloatFails at hbad
    cases hg : rowGet row "To Amount" with
    | none => rw [hg] at hbad; simp at hbad
    | some c =>
      rw [hg] at hbad hta
      simp at hta
      rw [hta] at hbad
      simp [htp] at hbad

/-- A row with a non-numeric amount fails on every state. -/
theorem processRow_error_of_bad_amount {row : Row}
    (h : nonNumericAmount row = true) (st : IngMap) :
    ∃ e, processRow st row = .error e := by
  unfold processRow
  cases hrec : recordOfRow row with
  | error e => exact ⟨e, by simp⟩
  | ok rec0 =>
  cases hkey : rowKey row with
  | error e => exact ⟨e, by simp⟩
  | ok key =>
  obtain ⟨e, he⟩ := conversionOfRow_error_of_bad_amount h
  exact ⟨e, by simp [he]⟩

/-! ## State lemmas for the aggregation loop -/

theorem lookupIng_append_single (st : IngMap) (key k : String) (rec : IngredientData) :
    lookupIng (st ++ [(key, rec)]) k =
      match lookupIng st k with
      | some d => some d
      | none => if key = k then some rec else none := by
  induction st with
  | nil => by_cases h : key = k <;> simp [lookupIng, h]
  | cons hd tl ih =>
    obtain ⟨j, d⟩ := hd
    by_cases h : j = k <;> simp [lookupIng, h, ih]

theorem lookupIng_appendConv (st : IngMap) (key k : String) (c : Conversion) :
    lookupIng (appendConv st key c) k =
      if key = k then
        (lookupIng st k).map (fun d => { d with conversions := d.conversions ++ [c] })
      else lookupIng st k := by
  induction st with
  | nil => by_cases h : key = k <;> simp [lookupIng, appendConv, h]
  | cons hd tl ih =>
    obtain ⟨j, d⟩ := hd
    by_cases h1 : j = key
    · subst h1
      by_cases h2 : j = k
      · subst h2
        simp [lookupIng, appendConv]
      · simp [lookupIng, appendConv, h2]
    · by_cases h2 : j = k
      · subst h2
        have : ¬(key = j) := fun h => h1 h.symm
        simp [lookupIng, appendConv, h1, this]
      · simp [lookupIng, appendConv, h1, h2, ih]

theorem keysOf_appendConv (st : IngMap) (key : String) (c : Conversion) :
    keysOf (appendConv st key c) = keysOf st := by
  induction st with
  | nil => rfl
  | cons hd tl ih =>
    obtain ⟨j, d⟩ := hd
    by_cases h : j = key
    · simp [appendConv, keysOf, h]
    · simp only [appendConv, h, if_false, ite_false, keysOf, List.map_cons]
      simpa [keysOf] using ih

theorem keysOf_append_single (st : IngMap) (key : String) (rec : IngredientData) :
    keysOf (st ++ [(key, rec)]) = keysOf st ++ [key] := by
  simp [keysOf]

theorem lookupIng_eq_none_iff (st : IngMap) (k : String) :
    lookupIng st k = none ↔ k ∉ keysOf st := by
  induction st with
  | nil => simp [lookupIng, keysOf]
  | cons hd tl ih =>
    obtain ⟨j, d⟩ := hd
    by_cases h : j = k
    · simp [lookupIng, keysOf, h]
    · simp [lookupIng, keysOf, h, ih]
      tauto

theorem descrOf_addConv (d : IngredientData) (c : Conversion) :
    descrOf { d with conversions := d.conversions ++ [c] } = descrOf d := rfl

theorem recordOfRow_conversions_nil {row : Row} {rec : IngredientData}
    (h : recordOfRow row = .ok rec) : rec.conversions = [] := by
  obtain ⟨nc, bc, _, _, hrec⟩ := recordOfRow_ok_inv h
  rw [hrec]

/-- How one loop step changes the lookup at an arbitrary key `k`: the
record under the row's own key gains the row's conversion (created from
the row's record if the key is new); every other key is untouched. -/
theorem processRow_lookup {st : IngMap} {row : Row} {st' : IngMap}
    (h : processRow st row = .ok st') (k : String) :
    ∃ rec0 key conv, recordOfRow row = .ok rec0 ∧ rowKey row = .ok key ∧
      conversionOfRow row = .ok conv ∧
      lookupIng st' k =
        (if key = k then
          match lookupIng st k with
          | some d => some { d with conversions := d.conversions ++ [conv] }
          | none => some { rec0 with conversions := rec0.conversions ++ [conv] }
        else lookupIng st k) := by
  obtain ⟨rec0, key, conv, hrec, hkey, hconv, hst⟩ := processRow_ok_inv h
  refine ⟨rec0, key, conv, hrec, hkey, hconv, ?_⟩
  subst hst
  rw [lookupIng_appendConv]
  by_cases hkk : key = k
  · subst hkk
    cases hnew : lookupIng st key with
    | some d =>
      simp [hnew, lookupIng_append_single]
    | none =>
      simp [hnew, lookupIng_append_single]
  · cases hnew : lookupIng st key with
    | some d =>
      simp [hkk, hnew]
    | none =>
      simp [hkk, hnew, lookupIng_append_single]
      cases hl : lookupIng st k with
      | some d => simp [hl]
      | none => simp [hl, hkk]

theorem rowKeyOpt_eq {row : Row} {key : String} (h : rowKey row = .ok key) :
    rowKeyOpt row = some key := by
  simp [rowKeyOpt, h, Except.toOption]

theorem convsFor_cons_pos {k key : String} {row : Row} {conv : Conversion}
    {rs : List Row} {cs : List Conversion} (hkey : rowKey row = .ok key)
    (hconv : conversionOfRow row = .ok conv) (hkk : key = k)
    (hcs : convsFor k rs = .ok cs) :
    convsFor k (row :: rs) = .ok (conv :: cs) := by
  subst hkk
  simp [convsFor, rowKeyOpt_eq hkey, hconv, hcs]

theorem convsFor_cons_neg {k key : String} {row : Row} {rs : List Row}
    (hkey : rowKey row = .ok key) (hkk : key ≠ k) :
    convsFor k (row :: rs) = convsFor k rs := by
  simp [convsFor, rowKeyOpt_eq hkey, hkk]

theorem keyIs_eq_true {k key : String} {row : Row} (hkey : rowKey row = .ok key)
    (hkk : key = k) : keyIs k row = true := by
  subst hkk
  simp [keyIs, rowKeyOpt_eq hkey]

theorem keyIs_eq_false {k key : String} {row : Row} (hkey : rowKey row = .ok key)
    (hkk : key ≠ k) : keyIs k row = false := by
  simp [keyIs, rowKeyOpt_eq hkey, hkk]

/-- The main invariant of the aggregation loop, for an arbitrary starting
state and an arbitrary key `k`. Either `k` was already in the state — then
its descriptive fields are unchanged and exactly the conversions of the
`k`-rows of the stream are appended; or `k` never occurs — then it stays
absent; or the first `k`-row of the stream creates the record — then the
descriptive fields are exactly that first row's and the conversions are
exactly those of the `k`-rows. -/
theorem aggLoop_inv (rows : List Row) (st0 stf : IngMap)
    (h : aggLoop st0 rows = .ok stf) (k : String) :
    (∃ d0, lookupIng st0 k = some d0 ∧ ∃ d cs, lookupIng stf k = some d ∧
      descrOf d = descrOf d0 ∧ convsFor k rows = .ok cs ∧
      d.conversions = d0.conversions ++ cs)
    ∨ (lookupIng st0 k = none ∧ lookupIng stf k = none ∧
        List.find? (keyIs k) rows = none ∧ convsFor k rows = .ok [])
    ∨ (lookupIng st0 k = none ∧
        ∃ r, List.find? (keyIs k) rows = some r ∧ ∃ rec d cs,
          recordOfRow r = .ok rec ∧ lookupIng stf k = some d ∧
          descrOf d = descrOf rec ∧ convsFor k rows = .ok cs ∧
          d.conversions = cs) := by
  induction rows generalizing st0 with
  | nil =>
    have hst : st0 = stf := by
      simpa [aggLoop] using h
    subst hst
    cases hl : lookupIng st0 k with
    | some d0 =>
      exact Or.inl ⟨d0, rfl, d0, [], rfl, rfl, rfl, by simp⟩
    | none =>
      exact Or.inr (Or.inl ⟨rfl, rfl, rfl, rfl⟩)
  | cons r rs ih =>
    have h' : (processRow st0 r >>= fun st1 => aggLoop st1 rs) = .ok stf := by
      simpa [aggLoop] using h
    obtain ⟨st1, hp, hrest⟩ := except_bind_ok h'
    obtain ⟨rec0, key, conv, hrec, hkey, hconv, hlook⟩ := processRow_lookup hp k
    by_cases hkk : key = k
    · subst hkk
      simp only [if_pos rfl] at hlook
      rcases ih st1 hrest with
        ⟨d1, hd1, d, cs, hdf, hdescr, hcs, hconvs⟩ |
        ⟨hnone, _, _, _⟩ |
        ⟨hnone, _⟩
      · cases hl0 : lookupIng st0 key with
        | some d0 =>
          rw [hl0] at hlook
          rw [hlook] at hd1
          cases hd1
          refine Or.inl ⟨d0, rfl, d, conv :: cs, hdf, ?_, ?_, ?_⟩
          · rw [hdescr]
            rfl
          · exact convsFor_cons_pos hkey hconv rfl hcs
          · rw [hconvs]
            simp
        | none =>
          rw [hl0] at hlook
          rw [hlook] at hd1
          cases hd1
          refine Or.inr (Or.inr ⟨rfl, r, ?_, rec0, d, conv :: cs, hrec, hdf, ?_, ?_, ?_⟩)
          · exact List.find?_cons_of_pos _ (keyIs_eq_true hkey rfl)
          · rw [hdescr]
            rfl
          · exact convsFor_cons_pos hkey hconv rfl hcs
          · rw [hconvs, recordOfRow_conversions_nil hrec]
            simp
      · rw [hlook] at hnone
        cases hl0 : lookupIng st0 key <;> rw [hl0] at hnone <;> simp at hnone
      · rw [hlook] at hnone
        cases hl0 : lookupIng st0 key <;> rw [hl0] at hnone <;> simp at hnone
    · simp only [if_neg hkk] at hlook
      have hfind : List.find? (keyIs k) (r :: rs) = List.find? (keyIs k) rs :=
        List.find?_cons_of_neg _ (by simp [keyIs_eq_false hkey hkk])
      have hconvsFor : convsFor k (r :: rs) = convsFor k rs :=
        convsFor_cons_neg hkey hkk
      rcases ih st1 hrest with
        ⟨d1, hd1, d, cs, hdf, hdescr, hcs, hconvs⟩ |
        ⟨hnone, hnf, hf, hcs⟩ |
        ⟨hnone, r', hf, rec, d, cs, hrec', hld, hdescr, hcs, hconvs⟩
      · exact Or.inl ⟨d1, hlook ▸ hd1, d, cs, hdf, hdescr, hconvsFor ▸ hcs, hconvs⟩
      · exact Or.inr (Or.inl ⟨hlook ▸ hnone, hnf, hfind ▸ hf, hconvsFor ▸ hcs⟩)
      · exact Or.inr (Or.inr ⟨hlook ▸ hnone, r', hfind ▸ hf,
          rec, d, cs, hrec', hld, hdescr, hconvsFor ▸ hcs, hconvs⟩)

/-- The keys of the loop state evolve by first-occurrence deduplication of
the row keys, one row at a time. -/
theorem aggLoop_keys (rows : List Row) (st0 stf : IngMap)
    (h : aggLoop st0 rows = .ok stf) :
    ∃ ks, rowKeys rows = .ok ks ∧ keysOf stf = ks.foldl dedupStep (keysOf st0) := by
  induction rows generalizing st0 with
  | nil =>
    have hst : st0 = stf := by
      simpa [aggLoop] using h
    subst hst
    exact ⟨[], rfl, rfl⟩
  | cons r rs ih =>
    have h' : (processRow st0 r >>= fun st1 => aggLoop st1 rs) = .ok stf := by
      simpa [aggLoop] using h
    obtain ⟨st1, hp, hrest⟩ := except_bind_ok h'
    obtain ⟨rec0, key, conv, hrec, hkey, hconv, hst1⟩ := processRow_ok_inv hp
    have hkeys1 : keysOf st1 = dedupStep (keysOf st0) key := by
      subst hst1
      rw [keysOf_appendConv]
      unfold dedupStep
      by_cases hmem : key ∈ keysOf st0
      · have : ¬(lookupIng st0 key = none) := by
          rw [lookupIng_eq_none_iff]
          simpa using hmem
        simp [Option.isNone, hmem]
        cases hl : lookupIng st0 key with
        | none => exact absurd hl this
        | some d => simp
      · have : lookupIng st0 key = none := (lookupIng_eq_none_iff st0 key).mpr hmem
        simp [this, hmem, keysOf_append_single]
    obtain ⟨ks, hks, hkeysf⟩ := ih st1 hrest
    refine ⟨key :: ks, ?_, ?_⟩
    · simp [rowKeys, hkey, hks]
    · rw [hkeysf, hkeys1]
      simp [List.foldl_cons]

theorem jsonObjHas_eq_true {fields : List (String × JsonVal)} {k : String}
    {v : JsonVal} (h : jsonObjGet fields k = some v) : jsonObjHas fields k = true := by
  induction fields with
  | nil => simp [jsonObjGet] at h
  | cons hd tl ih =>
    obtain ⟨j, w⟩ := hd
    by_cases hj : j = k
    · simp [jsonObjHas, hj]
    · rw [jsonObjGet, if_neg hj] at h
      simp [jsonObjHas, hj, ih h]

theorem jsonObjHas_eq_false {fields : List (String × JsonVal)} {k : String}
    (h : jsonObjGet fields k = none) : jsonObjHas fields k = false := by
  induction fields with
  | nil => rfl
  | cons hd tl ih =>
    obtain ⟨j, w⟩ := hd
    by_cases hj : j = k
    · rw [jsonObjGet, if_pos hj] at h
      cases h
    · rw [jsonObjGet, if_neg hj] at h
      simp [jsonObjHas, hj, ih h]

theorem get_current_version_of_obj_version {fields : List (String × JsonVal)}
    {v : JsonVal} (h : jsonObjGet fields "version" = some v) :
    get_current_version (.present (.parsed (.obj fields))) = .ok v := by
  have htry : tryReadVersion (.parsed (.obj fields)) = .ok v := by
    simp [tryReadVersion, pyContainsVersion, jsonObjHas_eq_true h,
      pySubscriptVersion, h]
  simp [get_current_version, htry]

theorem get_current_version_of_obj_no_version {fields : List (String × JsonVal)}
    (h : jsonObjGet fields "version" = none) :
    get_current_version (.present (.parsed (.obj fields))) = .ok (.num 0) := by
  have htry : tryReadVersion (.parsed (.obj fields)) = .ok (.num 0) := by
    simp [tryReadVersion, pyContainsVersion, jsonObjHas_eq_false h]
    rfl
  simp [get_current_version, htry]

theorem resolveNextVersion_absent : resolveNextVersion .absent = .ok 1 := by
  show Except.ok ((0 : ℚ) + 1) = Except.ok 1
  norm_num

theorem resolveNextVersion_jsonDecodeError :
    resolveNextVersion (.present .jsonDecodeError) = .ok 1 := by
  show Except.ok ((0 : ℚ) + 1) = Except.ok 1
  norm_num

theorem resolveNextVersion_ioError :
    resolveNextVersion (.present .ioError) = .ok 1 := by
  show Except.ok ((0 : ℚ) + 1) = Except.ok 1
  norm_num

/-- `convert_to_json` factored through `resolveNextVersion` (monad
associativity of lines 75–76). -/
theorem convert_to_json_eq (a : Artifact) (rows : List Row) :
    convert_to_json a rows =
      (do
        let v ← resolveNextVersion a
        let st ← aggregate rows
        pure { version := v, ingredients := st.map Prod.snd } :
        Except PyErr Document) := by
  unfold convert_to_json resolveNextVersion
  cases get_current_version a <;> rfl

/-! ## Theorems for the claims -/

/-- Claim C3: the next version is 1 when no prior artifact exists, when
the prior artifact is invalid JSON, or when it parses to an object with no
version field; when it parses to an object whose version is the number
`v`, the next version is `v + 1`. In the source the next version is
`get_current_version(...) + 1` (lines 75–76). -/
theorem version_resolution :
    (resolveNextVersion .absent = .ok 1)
    ∧ (resolveNextVersion (.present .jsonDecodeError) = .ok 1)
    ∧ (∀ fields : List (String × JsonVal), jsonObjGet fields "version" = none →
        resolveNextVersion (.present (.parsed (.obj fields))) = .ok 1)
    ∧ (∀ (fields : List (String × JsonVal)) (v : ℚ),
        jsonObjGet fields "version" = some (.num v) →
        resolveNextVersion (.present (.parsed (.obj fields))) = .ok (v + 1)) := by
  refine ⟨resolveNextVersion_absent, resolveNextVersion_jsonDecodeError, ?_, ?_⟩
  · intro fields h
    rw [resolveNextVersion, get_current_version_of_obj_no_version h]
    show Except.ok ((0 : ℚ) + 1) = Except.ok 1
    norm_num
  · intro fields v h
    rw [resolveNextVersion, get_current_version_of_obj_version h]
    rfl

/-- Witness for C3: a prior artifact `{"version": 5, ...}` yields next
version 6. -/
theorem version_resolution_witness :
    resolveNextVersion (.present (.parsed (.obj [("version", .num 5)]))) = .ok 6 := by
  have h := version_resolution.2.2.2 [("version", .num 5)] 5 rfl
  have h6 : (5 : ℚ) + 1 = 6 := by norm_num
  rw [h6] at h
  exact h

/-- Claim C5 counterexample: not every unreadable or malformed prior
artifact is silently recovered. The rows alone convert fine, yet the same
run crashes (the error propagates, the run does not succeed) for three
artifacts the claim quantifies over: non-UTF-8 bytes (`UnicodeDecodeError`
is not `JSONDecodeError` or `IOError`, so the `except` clause misses it),
a file whose text is the valid JSON `5` (malformed structure:
`'version' in 5` raises `TypeError`), and `{"version": "5"}` (malformed
version: `"5" + 1` raises `TypeError` at line 76). -/
theorem artifact_recovery_counterexample :
    aggregate [rowSugar] = .ok [("B2", sugarRecord)]
    ∧ convert_to_json (.present .unicodeDecodeError) [rowSugar] =
        .error .unicodeDecodeError
    ∧ convert_to_json (.present (.parsed (.num 5))) [rowSugar] = .error .typeError
    ∧ convert_to_json (.present (.parsed (.obj [("version", .str "5")]))) [rowSugar] =
        .error .typeError := by
  exact ⟨by decide, rfl, rfl, rfl⟩

/-- Claim C5 (amended): a prior artifact error is silently recovered
(current version treated as 0, run identical to a no-artifact run, still
succeeding with version 1 whenever aggregation succeeds) exactly when it
is one of the two exception classes the handler catches: JSON text that
fails to parse (`json.JSONDecodeError`) or an I/O failure reading the file
(`IOError`). Other unreadable or malformed artifacts crash the run
instead: non-UTF-8 bytes (`UnicodeDecodeError`), valid JSON whose top
level is not a container (`TypeError` from `'version' in data`), and a
version value that is a string (`TypeError` from `current_version + 1`). -/
theorem artifact_errors_recovered (rows : List Row) :
    (convert_to_json (.present .jsonDecodeError) rows = convert_to_json .absent rows
      ∧ convert_to_json (.present .ioError) rows = convert_to_json .absent rows)
    ∧ (∀ st, aggregate rows = .ok st →
        convert_to_json (.present .jsonDecodeError) rows = .ok ⟨1, st.map Prod.snd⟩
          ∧ convert_to_json (.present .ioError) rows = .ok ⟨1, st.map Prod.snd⟩)
    ∧ (convert_to_json (.present .unicodeDecodeError) rows =
        .error .unicodeDecodeError)
    ∧ (∀ q : ℚ, convert_to_json (.present (.parsed (.num q))) rows = .error .typeError)
    ∧ (∀ (fields : List (String × JsonVal)) (s : String),
        jsonObjGet fields "version" = some (.str s) →
        convert_to_json (.present (.parsed (.obj fields))) rows = .error .typeError) := by
  refine ⟨⟨rfl, rfl⟩, ?_, rfl, fun q => rfl, ?_⟩
  · intro st h
    constructor
    · rw [convert_to_json_eq, resolveNextVersion_jsonDecodeError, ok_bind, h]
      rfl
    · rw [convert_to_json_eq, resolveNextVersion_ioError, ok_bind, h]
      rfl
  · intro fields s h
    rw [convert_to_json_eq, resolveNextVersion, get_current_version_of_obj_version h]
    rfl

/-- Witness for C5 (amended): an unparseable artifact still converts the
sugar row at version 1, while `{"version": "5"}` crashes the same run. -/
theorem artifact_errors_recovered_witness :
    convert_to_json (.present .jsonDecodeError) [rowSugar] = .ok ⟨1, [sugarRecord]⟩
    ∧ convert_to_json (.present (.parsed (.obj [("version", .str "5")]))) [rowSugar] =
        .error .typeError := by
  constructor
  · exact ((artifact_errors_recovered [rowSugar]).2.1
      [("B2", sugarRecord)] (by decide)).1
  · exact (artifact_errors_recovered [rowSugar]).2.2.2.2 [("version", .str "5")] "5" rfl

/-- Claim C2 counterexample: the claim requires Count if and only if both
singular and plural are non-blank after trimming, but a whitespace-only
(hence blank-after-trimming) singular/plural pair still yields a Count
unit with empty fields — the code only checks `pd.notna`, not blankness.
The claim instead predicts `Simple("cup")` here. -/
theorem parse_unit_counterexample :
    specNonBlank (some (Cell.str " ")) = false
    ∧ parse_unit (some (.str "cup")) (some (.str " ")) (some (.str " ")) = .count "" ""
    ∧ UnitDesc.count "" "" ≠ .simple "cup" := by decide

/-- Claim C2 (amended): `parse_unit` returns
`Count(trim(singular), trim(plural))` if and only if both singular and
plural are *present* (neither missing nor NaN) — irrespective of the unit
string and irrespective of whether they are blank after trimming;
otherwise it returns `Simple(lowercase(trim(unit)))`, where a missing or
NaN unit yields `Simple("")`; and it is a total function (it never
raises). -/
theorem parse_unit_amended (u s p : Option Cell) :
    ((∃ a b, parse_unit u s p = .count a b) ↔ (optNotna s = true ∧ optNotna p = true))
    ∧ (∀ sc pc, s = some sc → p = some pc → cellNotna sc = true → cellNotna pc = true →
        parse_unit u s p = .count (strStrip (pyStr sc)) (strStrip (pyStr pc)))
    ∧ ((optNotna s = false ∨ optNotna p = false) →
        parse_unit u s p = .simple (strLower (normUnitStr u))) := by
  refine ⟨⟨?_, ?_⟩, ?_, ?_⟩
  · rintro ⟨a, b, hab⟩
    cases s with
    | none => simp [parse_unit] at hab
    | some sc =>
      cases p with
      | none => simp [parse_unit] at hab
      | some pc =>
        by_cases hsc : cellNotna sc = true <;> by_cases hpc : cellNotna pc = true <;>
          simp [parse_unit, optNotna, hsc, hpc] at hab ⊢
  · rintro ⟨hs, hp⟩
    cases s with
    | none => simp [optNotna] at hs
    | some sc =>
      cases p with
      | none => simp [optNotna] at hp
      | some pc =>
        simp [optNotna] at hs hp
        exact ⟨strStrip (pyStr sc), strStrip (pyStr pc), by simp [parse_unit, hs, hp]⟩
  · intro sc pc hs hp hsc hpc
    subst hs; subst hp
    simp [parse_unit, hsc, hpc]
  · intro h
    cases s with
    | none => simp [parse_unit]
    | some sc =>
      cases p with
      | none => simp [parse_unit]
      | some pc =>
        rcases h with h | h <;> simp [optNotna] at h <;> simp [parse_unit, h]

/-- Witness for C2 (amended): a present singular/plural pair gives a Count
unit with stripped fields, ignoring the unit column. -/
theorem parse_unit_amended_witness :
    parse_unit (some (.str "each")) (some (.str " egg ")) (some (.str "eggs")) =
      .count "egg" "eggs" := by
  have h := (parse_unit_amended (some (.str "each")) (some (.str " egg "))
    (some (.str "eggs"))).2.1 (.str " egg ") (.str "eggs") rfl rfl (by decide) (by decide)
  have h2 : strStrip (pyStr (Cell.str " egg ")) = "egg" := by decide
  have h3 : strStrip (pyStr (Cell.str "eggs")) = "eggs" := by decide
  rw [h2, h3] at h
  exact h

/-- Claim C4 counterexample: a row whose ID cell holds the number 0
provides a non-blank ID cell (its text form `"0"` is nonempty after
trimming), yet the grouping key is the trimmed Name, not the trimmed ID —
the code additionally requires Python truthiness of the raw ID cell. -/
theorem identity_key_counterexample :
    specNonBlank (rowGet rowZeroId "ID") = true
    ∧ rowKey rowZeroId = .ok "Flour"
    ∧ ("Flour" : String) ≠ strStrip (pyStr (Cell.num 0)) := by decide

/-- Claim C4 (amended): the grouping key equals the trimmed ID when the
row provides an ID cell that is non-NaN, truthy in the Python sense, and
nonempty after trimming; otherwise (column absent, NaN, falsy value such
as the number 0 or the empty string, or a whitespace-only string) the key
equals the trimmed Name. -/
theorem identity_key_amended (r : Row) (k : String) (h : rowKey r = .ok k) :
    (∀ c, rowGet r "ID" = some c → cellNotna c = true → pyTruthy c = true →
      strStrip (pyStr c) ≠ "" → k = strStrip (pyStr c))
    ∧ ((ingredientIdOf r = none ∨ ingredientIdOf r = some "") →
      ∃ nc, rowItem r "Name" = .ok nc ∧ k = strStrip (pyStr nc)) := by
  obtain ⟨nc, hnc, hk⟩ := rowKey_ok_inv h
  constructor
  · intro c hc hnotna htruthy hne
    have hid : ingredientIdOf r = some (strStrip (pyStr c)) := by
      simp [ingredientIdOf, hc, hnotna, htruthy]
    rw [hid] at hk
    simpa [keyFrom, hne] using hk
  · rintro (hid | hid) <;> rw [hid] at hk <;>
      exact ⟨nc, hnc, by simpa [keyFrom] using hk⟩

/-- Witness for C4 (amended): a padded ID string gives the trimmed ID as
key; a 0-valued (falsy) ID falls back to the trimmed Name. -/
theorem identity_key_amended_witness :
    (("X" : String) = strStrip (pyStr (Cell.str " X ")))
    ∧ (∃ nc, rowItem rowZeroId "Name" = .ok nc ∧ "Flour" = strStrip (pyStr nc)) := by
  constructor
  · exact (identity_key_amended rowIdX "X" (by decide)).1 (.str " X ") (by decide)
      (by decide) (by decide) (by decide)
  · exact (identity_key_amended rowZeroId "Flour" (by decide)).2 (Or.inl (by decide))

/-- Claim C9: the source raises `KeyError('Brand')` when the Brand column
is entirely absent — instead of behaving as if every Brand cell were
blank, as it does for the ID, Category and unit singular/plural columns.
This run aborts even though every cell needed for the output is present. -/
theorem missing_brand_column_fatal :
    convert_to_json .absent [rowNoBrand] = .error (.keyError "Brand") := by decide

/-- Claim C10: a falsy cell value such as the number 0 in the ID, Category
or Brand column is treated exactly like a blank cell: a falsy ID is not
used as the grouping key (the trimmed Name is), and falsy ID/Category/
Brand fields are omitted (`none`) from the resulting record. -/
theorem falsy_treated_as_blank (r : Row) (rec : IngredientData)
    (h : recordOfRow r = .ok rec) :
    (∀ c, rowGet r "ID" = some c → pyTruthy c = false →
      rec.id = none ∧ rowKey r = .ok rec.name)
    ∧ (∀ c, rowGet r "Category" = some c → pyTruthy c = false → rec.category = none)
    ∧ (∀ c, rowItem r "Brand" = .ok c → pyTruthy c = false → rec.brand = none) := by
  obtain ⟨nc, bc, hnc, hbc, hrec⟩ := recordOfRow_ok_inv h
  refine ⟨?_, ?_, ?_⟩
  · intro c hc hf
    have hid : ingredientIdOf r = none := by
      simp [ingredientIdOf, hc, hf]
    subst hrec
    refine ⟨by simp [hid], ?_⟩
    simp only [rowKey, hnc, hid]
    rfl
  · intro c hc hf
    have : categoryOf r = none := by simp [categoryOf, hc, hf]
    subst hrec
    simp [this]
  · intro c hc hf
    rw [hbc] at hc
    cases hc
    subst hrec
    simp [brandOf, hf]

/-- Witness for C10: a row with 0-valued ID, Category and Brand cells
yields a record with all three fields omitted, keyed by the name. -/
theorem falsy_treated_as_blank_witness :
    (zeroFieldsRecord.id = none ∧ rowKey rowZeroFields = .ok zeroFieldsRecord.name)
    ∧ zeroFieldsRecord.category = none
    ∧ zeroFieldsRecord.brand = none := by
  have h := falsy_treated_as_blank rowZeroFields zeroFieldsRecord (by decide)
  exact ⟨h.1 (.num 0) (by decide) (by decide),
    h.2.1 (.num 0) (by decide) (by decide),
    h.2.2 (.num 0) (by decide) (by decide)⟩

/-- Claim C6 counterexample: a row whose Name cell is blank (pandas NaN)
does not abort the run: `str(nan)` is the text `"nan"`, so the run
succeeds and writes a record named `"nan"` — no fatal error, output
written. -/
theorem blank_name_no_abort_counterexample :
    convert_to_json .absent [rowNanName] =
      .ok ⟨1, [{ name := "nan", id := none, category := none, brand := none,
                 conversions := [{ fromAmount := .fin 1, fromUnit := .simple "cup",
                                   toAmount := .fin 120, toUnit := .simple "gram" }] }]⟩ := by
  rw [convert_to_json_eq, resolveNextVersion_absent, ok_bind]
  rw [show aggregate [rowNanName] =
    .ok [("nan", { name := "nan", id := none, category := none, brand := none,
                   conversions := [{ fromAmount := .fin 1, fromUnit := .simple "cup",
                                     toAmount := .fin 120,
                                     toUnit := .simple "gram" }] })] from by decide]
  rfl

/-- Claim C6 (amended): only an input whose Name *column* is entirely
absent aborts the run (with `KeyError`); a row whose Name *cell* is blank
(NaN) does not abort — the row is processed with name `"nan"`, the string
form of the missing-value marker, which also serves as its grouping key
when the row has no usable ID. -/
theorem name_handling_amended (rows : List Row) :
    ((∃ r ∈ rows, rowGet r "Name" = none) → ∃ e, aggregate rows = .error e)
    ∧ (∀ r, rowGet r "Name" = some Cell.nan → ingredientIdOf r = none →
        rowKey r = .ok "nan") := by
  constructor
  · rintro ⟨r, hmem, hnone⟩
    exact aggLoop_error_of_bad_row hmem (processRow_error_of_no_name hnone) []
  · intro r hn hid
    have h1 : rowItem r "Name" = .ok Cell.nan := by simp [rowItem, hn]
    unfold rowKey
    rw [h1]
    simp [hid, keyFrom, Pure.pure, Except.pure]
    decide

/-- Witness for C6 (amended): an input missing the Name column fails;
a row with a NaN Name cell gets key `"nan"`. -/
theorem name_handling_amended_witness :
    (∃ e, aggregate [rowNoNameCol] = .error e)
    ∧ rowKey rowNanName = .ok "nan" :=
  ⟨(name_handling_amended [rowNoNameCol]).1 ⟨rowNoNameCol, by decide, by decide⟩,
   (name_handling_amended []).2 rowNanName (by decide) (by decide)⟩

/-- Claim C7: a row whose From Amount or To Amount cell is non-numeric
makes the whole conversion fail fatally: the error propagates out of
`convert_to_json` (for any prior-artifact state), so no output document —
full or partial — is produced, since the file write happens only after the
loop completes. -/
theorem nonnumeric_amount_fatal (a : Artifact) (rows : List Row) (r : Row)
    (h1 : r ∈ rows) (h2 : nonNumericAmount r = true) :
    ∃ e, convert_to_json a rows = .error e := by
  obtain ⟨e, he⟩ := aggLoop_error_of_bad_row h1 (processRow_error_of_bad_amount h2) []
  have hagg : aggregate rows = .error e := he
  rw [convert_to_json_eq]
  cases hv : resolveNextVersion a with
  | error e2 => exact ⟨e2, by simp⟩
  | ok v => exact ⟨e, by simp [hagg]⟩

/-- Witness for C7: a stream containing a row with From Amount `"abc"`
fails fatally. -/
theorem nonnumeric_amount_fatal_witness :
    ∃ e, convert_to_json .absent [rowFlour1, rowBadAmount] = .error e :=
  nonnumeric_amount_fatal .absent [rowFlour1, rowBadAmount] rowBadAmount
    (by decide) (by decide)

/-- Claim C1: for every row stream and every key, the record produced for
that key carries exactly the descriptive fields (name, and
id/category/brand when present) of the *first* row in stream order with
that key, and its conversion list is exactly the conversions of the rows
with that key, in stream order — later rows with the same key contribute
only their conversion, never a merge or overwrite of descriptive fields. -/
theorem first_write_wins (rows : List Row) (stf : IngMap) (k : String)
    (d : IngredientData) (hagg : aggregate rows = .ok stf)
    (hl : lookupIng stf k = some d) :
    ∃ r, List.find? (keyIs k) rows = some r ∧ ∃ rec cs,
      recordOfRow r = .ok rec ∧ descrOf d = descrOf rec ∧
      convsFor k rows = .ok cs ∧ d.conversions = cs := by
  rcases aggLoop_inv rows [] stf hagg k with
    ⟨d0, hd0, _⟩ |
    ⟨_, hnone, _, _⟩ |
    ⟨_, r, hfind, rec, d', cs, hrec, hld, hdescr, hcs, hconvs⟩
  · simp [lookupIng] at hd0
  · rw [hnone] at hl
    cases hl
  · rw [hld] at hl
    cases hl
    exact ⟨r, hfind, rec, cs, hrec, hdescr, hcs, hconvs⟩

/-- Witness for C1: two rows share key `A1` with conflicting names,
categories and brands; the record keeps the first row's fields and both
conversions in order. -/
theorem first_write_wins_witness :
    ∃ r, List.find? (keyIs "A1") [rowFlour1, rowFlour2] = some r ∧ ∃ rec cs,
      recordOfRow r = .ok rec ∧ descrOf flourRecord = descrOf rec ∧
      convsFor "A1" [rowFlour1, rowFlour2] = .ok cs ∧
      flourRecord.conversions = cs :=
  first_write_wins [rowFlour1, rowFlour2] [("A1", flourRecord)] "A1" flourRecord
    (by decide) (by decide)

/-- Claim C8: the order of records in the output equals the order of first
appearance of each grouping key in the input stream (insertion order of
the aggregation dict, not any sort). The statement holds for every row
list, hence for every per-row step of the loop: every processed prefix is
itself an `aggregate` run. The second conjunct ties the document's
ingredient list to the state's insertion order. -/
theorem insertion_order (a : Artifact) (rows : List Row) (stf : IngMap)
    (hagg : aggregate rows = .ok stf) :
    (∃ ks, rowKeys rows = .ok ks ∧ keysOf stf = dedupFirst ks)
    ∧ (∀ v, resolveNextVersion a = .ok v →
        convert_to_json a rows = .ok ⟨v, stf.map Prod.snd⟩) := by
  constructor
  · obtain ⟨ks, h1, h2⟩ := aggLoop_keys rows [] stf hagg
    refine ⟨ks, h1, ?_⟩
    rw [h2]
    rfl
  · intro v hv
    rw [convert_to_json_eq, hv, ok_bind, hagg]
    rfl

/-- Witness for C8: keys appear as A1, B2, A1; the output lists A1's
record first, then B2's — first-appearance order. -/
theorem insertion_order_witness :
    (∃ ks, rowKeys [rowFlour1, rowSugar, rowFlour2] = .ok ks ∧
      keysOf [("A1", flourRecord), ("B2", sugarRecord)] = dedupFirst ks)
    ∧ convert_to_json .absent [rowFlour1, rowSugar, rowFlour2] =
        .ok ⟨1, [flourRecord, sugarRecord]⟩ := by
  have h := insertion_order .absent [rowFlour1, rowSugar, rowFlour2]
    [("A1", flourRecord), ("B2", sugarRecord)] (by decide)
  exact ⟨h.1, h.2 1 resolveNextVersion_absent⟩

end IngredientConverter
